import Mathlib

/-!
Shallow embedding of `src/app.py` (DML-OpenProblem interactive platform).

The program's non-UI logic consists of:
* `get_problem_directories` — list the `Problems` directory, keep subdirectories,
  sort by the leading integer of names matching the regex `(\d+)_`, names without
  such a prefix getting the key `float('inf')` (Python's `sorted` is stable);
* `load_file_content` / `save_file_content` — UTF-8 text file round-trip
  (Python text mode: on POSIX writing is the identity on characters, reading
  uses universal-newline translation: `"\r\n"` and `"\r"` become `"\n"`);
* `render_math_content` — optional markdown conversion for `.md` files, then four
  `re.sub` passes rewriting the literal two-character delimiters
  `\(` → `$`, `\)` → `$`, `\[` → `$$`, `\]` → `$$`;
* `create_new_problem` — scaffolds `Problems/{n}_{name with spaces -> underscores}`
  with two fixed template files, overwriting existing ones (`open(..., 'w')`);
* `execute_notebook` — loads a script as a module, registers it in `sys.modules`
  under `"notebook_module"`, executes its top-level code with stdout redirected
  into a local `StringIO` buffer, returns the buffer on success and raises
  `Exception("Error executing notebook: " + str(e))` on any failure.

The filesystem is modelled as explicit state; a script's top-level code is
modelled as the sequence of its observable effects (prints / raised exception).
-/

namespace DmlApp

/-! ### Directory scanner (`get_problem_directories`, app.py lines 28-38) -/

/-- Value of `int(ds)` for a list of ASCII decimal digit characters `ds`,
as Python's `int` computes it. -/
def digitsToNat (ds : List Char) : Nat :=
  ds.foldl (fun a c => 10 * a + (c.toNat - 48)) 0

/-- `get_number` from app.py: `re.match(r'(\d+)_', dirname)` matched against the
start of the name; on a match, `int(match.group(1))`; otherwise the sort key is
`float('inf')`, modelled as `none`.  A match requires a nonempty maximal run of
digits followed immediately by an underscore (backtracking cannot produce any
other parse because `_` is not a digit).  Python's `\d` also matches non-ASCII
Unicode decimal digits; directory names are modelled as ASCII here. -/
def getNumber (dirname : String) : Option Nat :=
  let ds := dirname.data.takeWhile (fun c => c.isDigit)
  match ds, dirname.data.drop ds.length with
  | [], _ => none
  | _ :: _, '_' :: _ => some (digitsToNat ds)
  | _ :: _, _ => none

/-- Comparison used by `sorted(problem_dirs, key=get_number)`: compare the keys,
`float('inf')` (i.e. `none`) being greater than every integer and tied with
itself. -/
def keyLE (a b : String) : Bool :=
  match getNumber a, getNumber b with
  | some x, some y => decide (x ≤ y)
  | some _, none => true
  | none, some _ => false
  | none, none => true

/-- Python's `sorted` is a stable sort; `List.mergeSort` is the stable sort of
the Lean library, so the two agree (a stable sort's output is uniquely
determined by the comparison). -/
def sortProblemDirs (l : List String) : List String :=
  l.mergeSort keyLE

/-- One entry of `os.listdir`, together with the `os.path.isdir` status of the
joined path that app.py checks for it. -/
structure Dirent where
  name : String
  isDir : Bool
deriving DecidableEq

/-- Outcome of `os.listdir(PROBLEMS_DIR)`: the entry list, or the `OSError`
Python raises when the path is missing (`FileNotFoundError`) or is not a
directory (`NotADirectoryError`).  `get_problem_directories` has no
`try`/`except`, so these propagate. -/
inductive ListDirResult where
  | ok (entries : List Dirent)
  | errMissing
  | errNotDir
deriving DecidableEq

/-- `get_problem_directories` (app.py lines 28-38): list the root, keep the
entries that are directories, and sort them by `get_number`.  An `OSError`
from `os.listdir` propagates to the caller (modelled as `Except.error`). -/
def get_problem_directories : ListDirResult → Except String (List String)
  | .errMissing => .error "FileNotFoundError: [Errno 2] No such file or directory: 'Problems'"
  | .errNotDir => .error "NotADirectoryError: [Errno 20] Not a directory: 'Problems'"
  | .ok entries => .ok (sortProblemDirs ((entries.filter (fun e => e.isDir)).map (fun e => e.name)))

/-! ### Filesystem state, loader and saver (app.py lines 40-56) -/

/-- Filesystem state: the set of existing directories and the text content of
existing files (keyed by path). -/
structure FS where
  dirs : List String
  files : String → Option String

def emptyFS : FS := ⟨[], fun _ => none⟩

/-- `open(path, 'w')` followed by `f.write(content)`: create or truncate the
file and store the text.  In Python text mode with `newline=None`, writing
translates `'\n'` to `os.linesep`; on POSIX (`os.linesep = '\n'`) this is the
identity on the text, which is what is modelled. -/
def writeFile (fs : FS) (p : String) (content : String) : FS :=
  { fs with files := fun q => if q = p then some content else fs.files q }

/-- Universal-newline translation performed by reading a text-mode file with
`newline=None`: each `"\r\n"` and each lone `"\r"` in the stored text is
returned as `"\n"`. -/
def univNewlines : List Char → List Char
  | [] => []
  | '\r' :: '\n' :: rest => '\n' :: univNewlines rest
  | '\r' :: rest => '\n' :: univNewlines rest
  | c :: rest => c :: univNewlines rest

/-- `save_file_content` (app.py lines 49-56): write the full text to the path
(reporting success or failure to the UI, which is not modelled). -/
def save_file_content (fs : FS) (file_path : String) (content : String) : FS :=
  writeFile fs file_path content

/-- `load_file_content` (app.py lines 40-47): read the whole file as UTF-8 text
(universal-newline mode); on any failure report the error to the UI and return
`""`. -/
def load_file_content (fs : FS) (file_path : String) : String :=
  match fs.files file_path with
  | some raw => String.mk (univNewlines raw.data)
  | none => ""

/-! ### Math-delimiter rewrite (`render_math_content`, app.py lines 58-67) -/

/-- `re.sub` with a two-character literal pattern `[c1, c2]` and literal
replacement `r`: scan left to right, replacing each non-overlapping
occurrence. -/
def replace2 (c1 c2 : Char) (r : List Char) : List Char → List Char
  | [] => []
  | [c] => [c]
  | a :: b :: rest =>
    if a = c1 ∧ b = c2 then r ++ replace2 c1 c2 r rest
    else a :: replace2 c1 c2 r (b :: rest)

/-- The four delimiter substitutions of `render_math_content`, in program
order: `\(` → `$`, then `\)` → `$`, then `\[` → `$$`, then `\]` → `$$`. -/
def mathRewrite (s : List Char) : List Char :=
  replace2 '\\' ']' ['$', '$']
    (replace2 '\\' '[' ['$', '$']
      (replace2 '\\' ')' ['$']
        (replace2 '\\' '(' ['$'] s)))

/-- The text-transformation part of `render_math_content`: markdown-to-HTML
conversion (an external library, taken as an uninterpreted function `md`)
applied only when the extension tag is `".md"`, followed by the delimiter
rewrite, which is applied regardless of the tag. -/
def renderMathText (md : List Char → List Char) (content : List Char) (file_ext : String) : List Char :=
  mathRewrite (if file_ext = ".md" then md content else content)

/-! ### Problem scaffolder (`create_new_problem`, app.py lines 91-115) -/

def PROBLEMS_DIR : String := "Problems"

/-- The ASCII character of the decimal digit `d < 10`. -/
def decDigit (d : Nat) : Char := Char.ofNat (48 + d)

/-- Fuelled most-significant-first decimal digit accumulation. -/
def natDecAux : Nat → Nat → List Char → List Char
  | 0, _, acc => acc
  | fuel + 1, n, acc =>
    if n < 10 then decDigit n :: acc
    else natDecAux fuel (n / 10) (decDigit (n % 10) :: acc)

/-- Decimal digit list of `n`, most significant first (`n + 1` fuel always
suffices since `n < 10 ^ (n + 1)`). -/
def natDec (n : Nat) : List Char := natDecAux (n + 1) n []

/-- Python's `str(n)` / the f-string conversion of a nonnegative integer:
its decimal representation. -/
def natStr (n : Nat) : String := String.mk (natDec n)

/-- `problem_name.replace(' ', '_')`: every space becomes an underscore,
every other character is kept. -/
def replaceSpaces (s : String) : String :=
  String.mk (s.data.map (fun c => if c = ' ' then '_' else c))

/-- `os.path.join(a, b)` as used here: if `b` is absolute it replaces `a`,
otherwise the parts are joined with `'/'` (POSIX; `a` never ends in a slash at
the call sites in app.py). -/
def os_path_join (a b : String) : String :=
  if b.data.head? = some '/' then b else a ++ "/" ++ b

/-- `dir_name = f"{problem_number}_{problem_name.replace(' ', '_')}"`. -/
def dirNameFor (problem_number : Nat) (problem_name : String) : String :=
  natStr problem_number ++ "_" ++ replaceSpaces problem_name

/-- `problem_path = os.path.join(PROBLEMS_DIR, dir_name)`. -/
def problemPath (problem_number : Nat) (problem_name : String) : String :=
  os_path_join PROBLEMS_DIR (dirNameFor problem_number problem_name)

def learnPath (problem_number : Nat) (problem_name : String) : String :=
  os_path_join (problemPath problem_number problem_name) "learn.md"

def solutionPath (problem_number : Nat) (problem_name : String) : String :=
  os_path_join (problemPath problem_number problem_name) "solution.py"

/-- Content written to `learn.md` by the scaffolder. -/
def learnTemplate : String := "# Problem Description\n\n## Overview\n\n## Examples\n"

/-- Content written to `solution.py` by the scaffolder. -/
def solutionTemplate : String := "def solution():\n    pass\n\n# Test cases\n"

/-- The filesystem effect of `create_new_problem` (app.py lines 100-111) once
the button is pressed: guarded by Python truthiness of
`problem_number and problem_name` (nonzero and nonempty), it builds the
directory name, creates the directory and any missing parent
(`os.makedirs(..., exist_ok=True)`), and writes the two template files with
`open(..., 'w')`, which truncates existing files. -/
def create_new_problem (fs : FS) (problem_number : Nat) (problem_name : String) : FS :=
  if problem_number ≠ 0 ∧ problem_name ≠ "" then
    let problem_path := problemPath problem_number problem_name
    let fs1 : FS := { fs with dirs := problem_path :: PROBLEMS_DIR :: fs.dirs }
    let fs2 := writeFile fs1 (os_path_join problem_path "learn.md") learnTemplate
    writeFile fs2 (os_path_join problem_path "solution.py") solutionTemplate
  else fs

/-! ### Notebook executor (`execute_notebook`, app.py lines 121-147) -/

/-- One observable effect of a notebook script's top-level code:
`print(s)` (which writes `s` and a newline to stdout), or raising an
exception whose `str(e)` is `msg` (which aborts the remaining top-level
code). -/
inductive NbStep where
  | print (s : String)
  | raiseErr (msg : String)
deriving DecidableEq

/-- Outcome of the loading phase (`spec_from_file_location` /
`module_from_spec`): `spec` is `None`, `spec.loader` is `None`, or a module
whose top-level code has the given effects. -/
inductive NbLoad where
  | noSpec (path : String)
  | noLoader (path : String)
  | loaded (steps : List NbStep)

/-- `sys.modules`, restricted to what the program touches: a map from module
name to the identity of the registered module object. -/
def NbRegistry := String → Option Nat

def emptyReg : NbRegistry := fun _ => none

/-- Running the top-level code with stdout redirected into a `StringIO`
buffer: on completion the final buffer (`Sum.inl`); on an exception, the
message together with the buffer content at the moment of failure
(`Sum.inr`) — the buffer object retains that content, but it is a local of
`execute_notebook` and is not part of what the caller receives. -/
def runTopLevel : List NbStep → String → String ⊕ (String × String)
  | [], buf => Sum.inl buf
  | NbStep.print s :: rest, buf => runTopLevel rest (buf ++ s ++ "\n")
  | NbStep.raiseErr m :: _, buf => Sum.inr (m, buf)

/-- `execute_notebook` (app.py lines 121-147).  The `modId` argument is the
identity of the fresh module object created by `module_from_spec` for this
call.  Loading failures raise `ImportError` before `sys.modules` is touched;
once the module exists it is registered under `"notebook_module"` and then
executed.  Every exception is caught and re-raised as
`Exception("Error executing notebook: " + str(e))`; the local buffer is
dropped on that path. -/
def execute_notebook : NbLoad → NbRegistry → Nat → Except String String × NbRegistry
  | NbLoad.noSpec p, reg, _ =>
    (Except.error ("Error executing notebook: Could not load spec for " ++ p), reg)
  | NbLoad.noLoader p, reg, _ =>
    (Except.error ("Error executing notebook: Could not load module for " ++ p), reg)
  | NbLoad.loaded steps, reg, modId =>
    let reg2 : NbRegistry := fun k => if k = "notebook_module" then some modId else reg k
    match runTopLevel steps "" with
    | Sum.inl buf => (Except.ok buf, reg2)
    | Sum.inr (m, _) => (Except.error ("Error executing notebook: " ++ m), reg2)

/-- Concatenation of what `print` wrote for each element of `l`, in order. -/
def printedOut : List String → String
  | [] => ""
  | s :: rest => s ++ "\n" ++ printedOut rest

/-! ### Small string utilities used only to state claims -/

/-- `pat` is character-for-character an initial segment of `s`. -/
def isPre : List Char → List Char → Bool
  | [], _ => true
  | _ :: _, [] => false
  | a :: ps, b :: ss => a = b && isPre ps ss

/-- `pat` occurs as a contiguous substring of `s` (Python's `pat in s`). -/
def containsSub (pat : List Char) : List Char → Bool
  | [] => isPre pat []
  | b :: rest => isPre pat (b :: rest) || containsSub pat rest

/-- `s` starts with the text `pre` (Python's `str.startswith`). -/
def startsWithStr (pre s : String) : Bool := isPre pre.data s.data

/-- Filesystem fixture: the target directory of `create_new_problem 1 "a"`
already exists and already holds a `learn.md` and a `solution.py`. -/
def fixtureFS : FS :=
  ⟨[problemPath 1 "a", PROBLEMS_DIR],
   fun q =>
     if q = learnPath 1 "a" then some "old learn"
     else if q = solutionPath 1 "a" then some "old solution"
     else none⟩

/-! ## Helper lemmas -/

theorem univNewlines_cons_ne (c : Char) (rest : List Char) (hc : c ≠ '\r') :
    univNewlines (c :: rest) = c :: univNewlines rest := by
  unfold univNewlines
  split <;> simp_all <;> exact univNewlines.eq_def _

theorem univNewlines_of_no_cr : ∀ (l : List Char), '\r' ∉ l → univNewlines l = l := by
  intro l
  induction l with
  | nil => intro _; rfl
  | cons c rest ih =>
    intro h
    rw [univNewlines_cons_ne c rest (by intro e; exact h (e ▸ List.mem_cons_self c rest)),
      ih (fun m => h (List.mem_cons_of_mem c m))]

theorem runTopLevel_print_then_raise (pre : List String) (msg : String) :
    ∀ buf, runTopLevel (pre.map NbStep.print ++ [NbStep.raiseErr msg]) buf
      = Sum.inr (msg, buf ++ printedOut pre) := by
  induction pre with
  | nil => intro buf; simp [runTopLevel, printedOut]
  | cons s rest ih =>
    intro buf
    have h1 : runTopLevel ((s :: rest).map NbStep.print ++ [NbStep.raiseErr msg]) buf
        = runTopLevel (rest.map NbStep.print ++ [NbStep.raiseErr msg]) (buf ++ s ++ "\n") := rfl
    rw [h1, ih, printedOut]
    simp [String.append_assoc]

theorem learnPath_ne_solutionPath (n : Nat) (s : String) :
    learnPath n s ≠ solutionPath n s := by
  unfold learnPath solutionPath os_path_join
  rw [if_neg (by decide), if_neg (by decide)]
  intro h
  have h2 := congrArg String.data h
  simp only [String.data_append] at h2
  have h3 := List.append_cancel_left h2
  exact absurd h3 (by decide)

theorem keyLE_trans : ∀ (a b c : String), keyLE a b → keyLE b c → keyLE a c := by
  intro a b c
  unfold keyLE
  cases getNumber a <;> cases getNumber b <;> cases getNumber c <;>
    simp only [decide_eq_true_eq] <;> (first | omega | simp | (intro h1 h2; omega))

theorem keyLE_total : ∀ (a b : String), keyLE a b || keyLE b a := by
  intro a b
  unfold keyLE
  cases getNumber a <;> cases getNumber b <;>
    simp only [Bool.or_eq_true, decide_eq_true_eq] <;> (first | omega | simp)

theorem keyLE_none (a b : String) (h : keyLE a b = true) (ha : getNumber a = none) :
    getNumber b = none := by
  unfold keyLE at h
  rw [ha] at h
  cases hb : getNumber b <;> rw [hb] at h <;> simp_all

theorem sortProblemDirs_stable_none (l : List String) :
    (sortProblemDirs l).filter (fun d => (getNumber d).isNone)
      = l.filter (fun d => (getNumber d).isNone) := by
  have hall : ∀ a ∈ l.filter (fun d => (getNumber d).isNone), (getNumber a).isNone = true :=
    fun a ha => (List.mem_filter.mp ha).2
  have hpw : (l.filter (fun d => (getNumber d).isNone)).Pairwise (fun a b => keyLE a b = true) := by
    apply List.pairwise_of_forall_mem_list
    intro a ha b hb
    have pa := Option.isNone_iff_eq_none.mp ((List.mem_filter.mp ha).2)
    have pb := Option.isNone_iff_eq_none.mp ((List.mem_filter.mp hb).2)
    simp [keyLE, pa, pb]
  have hsub : List.Sublist (l.filter (fun d => (getNumber d).isNone)) (sortProblemDirs l) :=
    List.sublist_mergeSort keyLE_trans keyLE_total hpw (List.filter_sublist l)
  have hsub2 := hsub.filter (fun d => (getNumber d).isNone)
  rw [List.filter_eq_self.mpr hall] at hsub2
  have hlen : ((sortProblemDirs l).filter (fun d => (getNumber d).isNone)).length
      = (l.filter (fun d => (getNumber d).isNone)).length :=
    ((List.mergeSort_perm l keyLE).filter _).length_eq
  exact (hsub2.eq_of_length hlen.symm).symm

/-! ### `re.sub` scanning lemmas (for C5) -/

theorem replace2_step_ne (c1 c2 : Char) (r : List Char) (a b : Char) (rest : List Char)
    (h : ¬(a = c1 ∧ b = c2)) :
    replace2 c1 c2 r (a :: b :: rest) = a :: replace2 c1 c2 r (b :: rest) := by
  rw [replace2, if_neg h]

theorem replace2_step_eq (c1 c2 : Char) (r : List Char) (rest : List Char) :
    replace2 c1 c2 r (c1 :: c2 :: rest) = r ++ replace2 c1 c2 r rest := by
  rw [replace2, if_pos ⟨rfl, rfl⟩]

theorem replace2_cons_ne_fst (c1 c2 : Char) (r : List Char) (a : Char) (T : List Char)
    (h : a ≠ c1) :
    replace2 c1 c2 r (a :: T) = a :: replace2 c1 c2 r T := by
  cases T with
  | nil => rfl
  | cons b rest => exact replace2_step_ne c1 c2 r a b rest (fun hc => h hc.1)

/-- A segment containing no occurrence of the pattern's first character is
copied through unchanged, and scanning continues after it (no match can start
inside it or straddle its right edge). -/
theorem replace2_append_all_ne (c1 c2 : Char) (r : List Char) :
    ∀ (x T : List Char), (∀ z ∈ x, z ≠ c1) →
      replace2 c1 c2 r (x ++ T) = x ++ replace2 c1 c2 r T := by
  intro x
  induction x with
  | nil => intro T _; rfl
  | cons z x' ih =>
    intro T hx
    rw [List.cons_append, replace2_cons_ne_fst c1 c2 r z (x' ++ T)
      (hx z (List.mem_cons_self z x')), ih T (fun w hw => hx w (List.mem_cons_of_mem z hw)),
      List.cons_append]

/-- A two-character run `[c1, k]` with `k` neither the pattern's second nor
first character is copied through unchanged. -/
theorem replace2_delim (c1 c2 : Char) (r : List Char) (k : Char) (T : List Char)
    (hk2 : k ≠ c2) (hk1 : k ≠ c1) :
    replace2 c1 c2 r (c1 :: k :: T) = c1 :: k :: replace2 c1 c2 r T := by
  rw [replace2_step_ne c1 c2 r c1 k T (fun hc => hk2 hc.2),
    replace2_cons_ne_fst c1 c2 r k T hk1]

theorem replace2_through (c1 c2 : Char) (r : List Char) (x : List Char)
    (hx : ∀ z ∈ x, z ≠ c1) (k : Char) (hk2 : k ≠ c2) (hk1 : k ≠ c1) (T : List Char) :
    replace2 c1 c2 r (x ++ c1 :: k :: T) = x ++ c1 :: k :: replace2 c1 c2 r T := by
  rw [replace2_append_all_ne c1 c2 r x (c1 :: k :: T) hx, replace2_delim c1 c2 r k T hk2 hk1]

/-- Left-to-right scanning over `m ++ d` where no match can straddle the
boundary (the head of `d` is not the pattern's second character): the scan
over `d` proceeds independently of whatever `m` rewrote to. -/
theorem replace2_append_exists (c1 c2 : Char) (r d : List Char) (hd : d.head? ≠ some c2) :
    ∀ m : List Char, ∃ M, replace2 c1 c2 r (m ++ d) = M ++ replace2 c1 c2 r d := by
  have key : ∀ (len : Nat) (m : List Char), m.length ≤ len →
      ∃ M, replace2 c1 c2 r (m ++ d) = M ++ replace2 c1 c2 r d := by
    intro len
    induction len with
    | zero =>
      intro m hm
      rw [List.length_eq_zero.mp (Nat.le_zero.mp hm)]
      exact ⟨[], rfl⟩
    | succ n ih =>
      intro m hm
      rcases m with _ | ⟨z1, m1⟩
      · exact ⟨[], rfl⟩
      rcases m1 with _ | ⟨z2, m'⟩
      · rcases d with _ | ⟨e, d'⟩
        · exact ⟨[z1], rfl⟩
        · have he : e ≠ c2 := fun hc => hd (by rw [hc]; rfl)
          exact ⟨[z1], by
            rw [List.singleton_append, replace2_step_ne c1 c2 r z1 e d' (fun hc => he hc.2),
              List.singleton_append]⟩
      · by_cases hz : z1 = c1 ∧ z2 = c2
        · obtain ⟨rfl, rfl⟩ := hz
          obtain ⟨M', hM⟩ := ih m' (by simp at hm ⊢; omega)
          exact ⟨r ++ M', by
            rw [List.cons_append, List.cons_append, replace2_step_eq, hM, List.append_assoc]⟩
        · obtain ⟨M', hM⟩ := ih (z2 :: m') (by simp at hm ⊢; omega)
          exact ⟨z1 :: M', by
            rw [List.cons_append, List.cons_append,
              replace2_step_ne c1 c2 r z1 z2 (m' ++ d) hz]
            rw [List.cons_append] at hM
            rw [hM, List.cons_append]⟩
  exact fun m => key m.length m le_rfl

/-- Effect of the first pass (`\(` → `$`) on text holding an inline site
`\(x\)` and a display site `\[y\]` whose contents are backslash-free. -/
theorem replace2_pass_paren (a x m y b : List Char) (hx : '\\' ∉ x) (hy : '\\' ∉ y) :
    ∃ A M, replace2 '\\' '(' ['$']
        (a ++ '\\' :: '(' :: (x ++ '\\' :: ')' :: (m ++ '\\' :: '[' :: (y ++ '\\' :: ']' :: b))))
      = A ++ '$' :: (x ++ '\\' :: ')' :: (M ++ '\\' :: '[' :: (y ++ '\\' :: ']' ::
          replace2 '\\' '(' ['$'] b))) := by
  have hxne : ∀ z ∈ x, z ≠ '\\' := fun z hz e => hx (e ▸ hz)
  have hyne : ∀ z ∈ y, z ≠ '\\' := fun z hz e => hy (e ▸ hz)
  obtain ⟨A, hA⟩ := replace2_append_exists '\\' '(' ['$']
    ('\\' :: '(' :: (x ++ '\\' :: ')' :: (m ++ '\\' :: '[' :: (y ++ '\\' :: ']' :: b))))
    (by simp) a
  obtain ⟨M, hM⟩ := replace2_append_exists '\\' '(' ['$']
    ('\\' :: '[' :: (y ++ '\\' :: ']' :: b)) (by simp) m
  refine ⟨A, M, ?_⟩
  rw [hA, replace2_step_eq,
    replace2_through '\\' '(' ['$'] x hxne ')' (by decide) (by decide) _,
    hM,
    replace2_delim '\\' '(' ['$'] '[' _ (by decide) (by decide),
    replace2_through '\\' '(' ['$'] y hyne ']' (by decide) (by decide) b]
  simp [List.append_assoc]

/-- Effect of the second pass (`\)` → `$`). -/
theorem replace2_pass_round (A x M y b : List Char) (hx : '\\' ∉ x) (hy : '\\' ∉ y) :
    ∃ A2 M2, replace2 '\\' ')' ['$']
        (A ++ '$' :: (x ++ '\\' :: ')' :: (M ++ '\\' :: '[' :: (y ++ '\\' :: ']' :: b))))
      = A2 ++ '$' :: (x ++ '$' :: (M2 ++ '\\' :: '[' :: (y ++ '\\' :: ']' ::
          replace2 '\\' ')' ['$'] b))) := by
  have hxne : ∀ z ∈ ('$' :: x), z ≠ '\\' := by
    intro z hz e
    rcases List.mem_cons.mp hz with h1 | h1
    · exact absurd (e ▸ h1) (by decide)
    · exact hx (e ▸ h1)
  have hyne : ∀ z ∈ y, z ≠ '\\' := fun z hz e => hy (e ▸ hz)
  obtain ⟨A2, hA⟩ := replace2_append_exists '\\' ')' ['$']
    ('$' :: (x ++ '\\' :: ')' :: (M ++ '\\' :: '[' :: (y ++ '\\' :: ']' :: b))))
    (by simp) A
  obtain ⟨M2, hM⟩ := replace2_append_exists '\\' ')' ['$']
    ('\\' :: '[' :: (y ++ '\\' :: ']' :: b)) (by simp) M
  refine ⟨A2, M2, ?_⟩
  rw [hA,
    show ('$' :: (x ++ '\\' :: ')' :: (M ++ '\\' :: '[' :: (y ++ '\\' :: ']' :: b))))
      = ('$' :: x) ++ '\\' :: ')' :: (M ++ '\\' :: '[' :: (y ++ '\\' :: ']' :: b)) from by simp,
    replace2_append_all_ne '\\' ')' ['$'] ('$' :: x) _ hxne,
    replace2_step_eq,
    hM,
    replace2_delim '\\' ')' ['$'] '[' _ (by decide) (by decide),
    replace2_through '\\' ')' ['$'] y hyne ']' (by decide) (by decide) b]
  simp [List.append_assoc]

/-- Effect of the third pass (`\[` → `$$`). -/
theorem replace2_pass_bracket (A x M y b : List Char) (hx : '\\' ∉ x) (hy : '\\' ∉ y) :
    ∃ A3 M3, replace2 '\\' '[' ['$', '$']
        (A ++ '$' :: (x ++ '$' :: (M ++ '\\' :: '[' :: (y ++ '\\' :: ']' :: b))))
      = A3 ++ '$' :: (x ++ '$' :: (M3 ++ '$' :: '$' :: (y ++ '\\' :: ']' ::
          replace2 '\\' '[' ['$', '$'] b))) := by
  have hxne : ∀ z ∈ ('$' :: x ++ ['$']), z ≠ '\\' := by
    intro z hz e
    rcases List.mem_cons.mp hz with h1 | h1
    · exact absurd (e ▸ h1) (by decide)
    rcases List.mem_append.mp h1 with h2 | h2
    · exact hx (e ▸ h2)
    · exact absurd (e ▸ List.mem_singleton.mp h2) (by decide)
  have hyne : ∀ z ∈ y, z ≠ '\\' := fun z hz e => hy (e ▸ hz)
  obtain ⟨A3, hA⟩ := replace2_append_exists '\\' '[' ['$', '$']
    ('$' :: (x ++ '$' :: (M ++ '\\' :: '[' :: (y ++ '\\' :: ']' :: b)))) (by simp) A
  obtain ⟨M3, hM⟩ := replace2_append_exists '\\' '[' ['$', '$']
    ('\\' :: '[' :: (y ++ '\\' :: ']' :: b)) (by simp) M
  refine ⟨A3, M3, ?_⟩
  rw [hA,
    show ('$' :: (x ++ '$' :: (M ++ '\\' :: '[' :: (y ++ '\\' :: ']' :: b))))
      = ('$' :: x ++ ['$']) ++ (M ++ '\\' :: '[' :: (y ++ '\\' :: ']' :: b)) from by simp,
    replace2_append_all_ne '\\' '[' ['$', '$'] ('$' :: x ++ ['$']) _ hxne,
    hM,
    replace2_step_eq,
    replace2_through '\\' '[' ['$', '$'] y hyne ']' (by decide) (by decide) b]
  simp [List.append_assoc]

/-- Effect of the fourth pass (`\]` → `$$`). -/
theorem replace2_pass_square (A x M y b : List Char) (hx : '\\' ∉ x) (hy : '\\' ∉ y) :
    ∃ A4 M4, replace2 '\\' ']' ['$', '$']
        (A ++ '$' :: (x ++ '$' :: (M ++ '$' :: '$' :: (y ++ '\\' :: ']' :: b))))
      = A4 ++ '$' :: (x ++ '$' :: (M4 ++ '$' :: '$' :: (y ++ '$' :: '$' ::
          replace2 '\\' ']' ['$', '$'] b))) := by
  have hxne : ∀ z ∈ ('$' :: x ++ ['$']), z ≠ '\\' := by
    intro z hz e
    rcases List.mem_cons.mp hz with h1 | h1
    · exact absurd (e ▸ h1) (by decide)
    rcases List.mem_append.mp h1 with h2 | h2
    · exact hx (e ▸ h2)
    · exact absurd (e ▸ List.mem_singleton.mp h2) (by decide)
  have hyne : ∀ z ∈ ('$' :: '$' :: y), z ≠ '\\' := by
    intro z hz e
    rcases List.mem_cons.mp hz with h1 | h1
    · exact absurd (e ▸ h1) (by decide)
    rcases List.mem_cons.mp h1 with h2 | h2
    · exact absurd (e ▸ h2) (by decide)
    · exact hy (e ▸ h2)
  obtain ⟨A4, hA⟩ := replace2_append_exists '\\' ']' ['$', '$']
    ('$' :: (x ++ '$' :: (M ++ '$' :: '$' :: (y ++ '\\' :: ']' :: b)))) (by simp) A
  obtain ⟨M4, hM⟩ := replace2_append_exists '\\' ']' ['$', '$']
    ('$' :: '$' :: (y ++ '\\' :: ']' :: b)) (by simp) M
  refine ⟨A4, M4, ?_⟩
  rw [hA,
    show ('$' :: (x ++ '$' :: (M ++ '$' :: '$' :: (y ++ '\\' :: ']' :: b))))
      = ('$' :: x ++ ['$']) ++ (M ++ '$' :: '$' :: (y ++ '\\' :: ']' :: b)) from by simp,
    replace2_append_all_ne '\\' ']' ['$', '$'] ('$' :: x ++ ['$']) _ hxne,
    hM,
    show ('$' :: '$' :: (y ++ '\\' :: ']' :: b))
      = ('$' :: '$' :: y) ++ ('\\' :: ']' :: b) from by simp,
    replace2_append_all_ne '\\' ']' ['$', '$'] ('$' :: '$' :: y) _ hyne,
    replace2_step_eq]
  simp [List.append_assoc]

/-- Composite effect of the four passes on any text holding an inline site
`\(x\)` followed by a display site `\[y\]` with backslash-free `x` and `y`:
both sites are rewritten to `$x$` and `$$y$$`. -/
theorem mathRewrite_sites (a x m y b : List Char) (hx : '\\' ∉ x) (hy : '\\' ∉ y) :
    ∃ A M B, mathRewrite
        (a ++ '\\' :: '(' :: (x ++ '\\' :: ')' :: (m ++ '\\' :: '[' :: (y ++ '\\' :: ']' :: b))))
      = A ++ '$' :: (x ++ '$' :: (M ++ '$' :: '$' :: (y ++ '$' :: '$' :: B))) := by
  obtain ⟨A1, M1, h1⟩ := replace2_pass_paren a x m y b hx hy
  obtain ⟨A2, M2, h2⟩ := replace2_pass_round A1 x M1 y (replace2 '\\' '(' ['$'] b) hx hy
  obtain ⟨A3, M3, h3⟩ := replace2_pass_bracket A2 x M2 y
    (replace2 '\\' ')' ['$'] (replace2 '\\' '(' ['$'] b)) hx hy
  obtain ⟨A4, M4, h4⟩ := replace2_pass_square A3 x M3 y
    (replace2 '\\' '[' ['$', '$'] (replace2 '\\' ')' ['$'] (replace2 '\\' '(' ['$'] b))) hx hy
  exact ⟨A4, M4, _, by rw [mathRewrite, h1, h2, h3, h4]⟩

/-! ### Decimal representation facts (for C10) -/

theorem natDecAux_head : ∀ (f n : Nat) (acc : List Char), n < 10 ^ (f + 1) →
    ∃ d rest, natDecAux (f + 1) n acc = decDigit d :: rest ∧ d < 10 := by
  intro f
  induction f with
  | zero =>
    intro n acc h
    have hn : n < 10 := by simpa using h
    exact ⟨n, acc, by simp [natDecAux, hn], hn⟩
  | succ f ih =>
    intro n acc h
    by_cases hn : n < 10
    · exact ⟨n, acc, by simp [natDecAux, hn], hn⟩
    · have hdiv : n / 10 < 10 ^ (f + 1) := by
        rw [Nat.div_lt_iff_lt_mul (by omega)]
        calc n < 10 ^ (f + 1 + 1) := h
          _ = 10 ^ (f + 1) * 10 := by ring
      obtain ⟨d, rest, he, hd⟩ := ih (n / 10) (decDigit (n % 10) :: acc) hdiv
      exact ⟨d, rest, by rw [show natDecAux (f + 1 + 1) n acc
        = natDecAux (f + 1) (n / 10) (decDigit (n % 10) :: acc) from by simp [natDecAux, hn], he], hd⟩

theorem natDec_head (n : Nat) : ∃ d rest, natDec n = decDigit d :: rest ∧ d < 10 := by
  have hp : n < 10 ^ (n + 1) := by
    calc n < 2 ^ n := Nat.lt_two_pow n
      _ ≤ 10 ^ n := Nat.pow_le_pow_left (by omega) n
      _ ≤ 10 ^ (n + 1) := Nat.pow_le_pow_right (by omega) (by omega)
  exact natDecAux_head n n [] hp

theorem dirNameFor_not_abs (n : Nat) (s : String) :
    (dirNameFor n s).data.head? ≠ some '/' := by
  obtain ⟨d, rest, he, hd⟩ := natDec_head n
  unfold dirNameFor natStr
  simp only [String.data_append, he]
  intro hc
  simp only [List.cons_append, List.head?_cons, Option.some.injEq] at hc
  revert hc
  interval_cases d <;> decide

theorem problemPath_eq (n : Nat) (s : String) :
    problemPath n s = "Problems/" ++ dirNameFor n s := by
  unfold problemPath os_path_join PROBLEMS_DIR
  rw [if_neg (dirNameFor_not_abs n s)]
  rw [show ("Problems" : String) ++ "/" = "Problems/" from by decide]

/-! ## Claims -/

/-- C8: a script whose top-level code prints `"hello"` and then `"world"`,
executed by `execute_notebook`, yields exactly the captured output
`"hello\nworld\n"`. -/
theorem c8_notebook_output_captured (reg : NbRegistry) (modId : Nat) :
    (execute_notebook (NbLoad.loaded [NbStep.print "hello", NbStep.print "world"]) reg modId).1
      = Except.ok "hello\nworld\n" := rfl

/-- C2, counterexample: on a missing root directory (and likewise on a
root that is not a directory) `get_problem_directories` propagates the
`OSError` raised by `os.listdir` — it does not return an empty list. -/
theorem c2_counterexample :
    get_problem_directories ListDirResult.errMissing
        = Except.error "FileNotFoundError: [Errno 2] No such file or directory: 'Problems'"
    ∧ get_problem_directories ListDirResult.errNotDir
        = Except.error "NotADirectoryError: [Errno 20] Not a directory: 'Problems'" :=
  ⟨rfl, rfl⟩

/-- C2, amended: for a root path that does not exist or is not a directory the
scanner raises the error coming from `os.listdir` (there is no `try`/`except`
in `get_problem_directories`), while on a readable directory it always
succeeds with a list. -/
theorem c2_scanner_raises_on_bad_root :
    (∃ msg, get_problem_directories ListDirResult.errMissing = Except.error msg)
    ∧ (∃ msg, get_problem_directories ListDirResult.errNotDir = Except.error msg)
    ∧ ∀ entries, ∃ out, get_problem_directories (ListDirResult.ok entries) = Except.ok out :=
  ⟨⟨_, rfl⟩, ⟨_, rfl⟩, fun _ => ⟨_, rfl⟩⟩

/-- C4, counterexample: saving the text `"a\rb"` and loading it back returns
`"a\nb"`, not the original text — Python's text mode reads with
universal-newline translation, so the round trip is not byte-identical for
every text. -/
theorem c4_counterexample :
    load_file_content (save_file_content emptyFS "f.md" "a\rb") "f.md" = "a\nb"
    ∧ "a\nb" ≠ "a\rb" :=
  ⟨by decide, by decide⟩

/-- C4, amended: saving text `T` and loading it back returns `T` with
universal-newline translation applied (`"\r\n"` and `"\r"` become `"\n"`);
in particular, for every text containing no carriage return the round trip
returns exactly `T`. -/
theorem c4_roundtrip (fs : FS) (p T : String) :
    load_file_content (save_file_content fs p T) p = String.mk (univNewlines T.data)
    ∧ ('\r' ∉ T.data → load_file_content (save_file_content fs p T) p = T) := by
  have h1 : load_file_content (save_file_content fs p T) p = String.mk (univNewlines T.data) := by
    simp [load_file_content, save_file_content, writeFile]
  refine ⟨h1, fun h => ?_⟩
  rw [h1, univNewlines_of_no_cr _ h]

theorem c4_roundtrip_witness :
    load_file_content (save_file_content emptyFS "Problems/1_a/learn.md" "# Title\n\nbody") "Problems/1_a/learn.md"
      = "# Title\n\nbody" :=
  (c4_roundtrip emptyFS "Problems/1_a/learn.md" "# Title\n\nbody").2 (by decide)

/-- C6: when the target directory already exists and already contains
`learn.md` and `solution.py`, `create_new_problem` unconditionally overwrites
both files with the fixed templates, discarding the previous content. -/
theorem c6_scaffold_overwrites (fs : FS) (n : Nat) (s : String) (oldLearn oldSolution : String)
    (hn : n ≠ 0) (hs : s ≠ "")
    (hdir : problemPath n s ∈ fs.dirs)
    (hlearn : fs.files (learnPath n s) = some oldLearn)
    (hsol : fs.files (solutionPath n s) = some oldSolution) :
    (create_new_problem fs n s).files (learnPath n s) = some learnTemplate
    ∧ (create_new_problem fs n s).files (solutionPath n s) = some solutionTemplate := by
  have hne := learnPath_ne_solutionPath n s
  unfold create_new_problem
  rw [if_pos ⟨hn, hs⟩]
  constructor
  · show (if learnPath n s = solutionPath n s then some solutionTemplate
      else if learnPath n s = learnPath n s then some learnTemplate
      else fs.files (learnPath n s)) = some learnTemplate
    rw [if_neg hne, if_pos rfl]
  · show (if solutionPath n s = solutionPath n s then some solutionTemplate
      else if solutionPath n s = learnPath n s then some learnTemplate
      else fs.files (solutionPath n s)) = some solutionTemplate
    rw [if_pos rfl]

theorem c6_scaffold_overwrites_witness :
    (create_new_problem fixtureFS 1 "a").files (learnPath 1 "a") = some learnTemplate
    ∧ (create_new_problem fixtureFS 1 "a").files (solutionPath 1 "a") = some solutionTemplate :=
  c6_scaffold_overwrites fixtureFS 1 "a" "old learn" "old solution"
    (by decide) (by decide) (List.mem_cons_self _ _) (by decide) (by decide)

/-- C7: `create_new_problem` with number `42` and name `"Two Sum"` creates the
directory `Problems/42_Two_Sum` containing a `learn.md` whose content starts
with `"# Problem Description"` and a `solution.py` whose content contains
`"def solution():"`. -/
theorem c7_scaffold_scenario (fs : FS) :
    problemPath 42 "Two Sum" = "Problems/42_Two_Sum"
    ∧ "Problems/42_Two_Sum" ∈ (create_new_problem fs 42 "Two Sum").dirs
    ∧ (create_new_problem fs 42 "Two Sum").files "Problems/42_Two_Sum/learn.md" = some learnTemplate
    ∧ startsWithStr "# Problem Description" learnTemplate = true
    ∧ (create_new_problem fs 42 "Two Sum").files "Problems/42_Two_Sum/solution.py" = some solutionTemplate
    ∧ containsSub "def solution():".data solutionTemplate.data = true :=
  ⟨by decide, List.Mem.head _, rfl, by decide, rfl, by decide⟩

/-- C1, counterexample: for a script that prints `"hello"` and then raises an
error described as `"boom"`, the caller of `execute_notebook` receives only
the wrapped error `"Error executing notebook: boom"`; the pre-failure output
`"hello"` appears nowhere in what the caller receives — the capture buffer is
a local that is discarded on the raise, so the pre-failure output is lost to
the caller. -/
theorem c1_counterexample :
    (execute_notebook (NbLoad.loaded [NbStep.print "hello", NbStep.raiseErr "boom"]) emptyReg 0).1
        = Except.error "Error executing notebook: boom"
    ∧ containsSub "hello".data "Error executing notebook: boom".data = false :=
  ⟨rfl, by decide⟩

/-- C1, amended: a script raising an unhandled exception makes
`execute_notebook` surface a single wrapped error whose message includes the
original error's description; the capture buffer still holds the pre-failure
prints at the moment of failure, but it is internal to the call — the caller
receives only the wrapped message, not the buffer. -/
theorem c1_wrapped_error (pre : List String) (msg : String) (reg : NbRegistry) (modId : Nat) :
    (execute_notebook (NbLoad.loaded (pre.map NbStep.print ++ [NbStep.raiseErr msg])) reg modId).1
        = Except.error ("Error executing notebook: " ++ msg)
    ∧ runTopLevel (pre.map NbStep.print ++ [NbStep.raiseErr msg]) ""
        = Sum.inr (msg, printedOut pre) := by
  have h := runTopLevel_print_then_raise pre msg ""
  have h0 : ("" : String) ++ printedOut pre = printedOut pre := by
    cases hp : printedOut pre
    rfl
  rw [h0] at h
  exact ⟨by simp [execute_notebook, h], h⟩

/-- C9, counterexample: a call whose loading phase fails before the module
object is created (`spec_from_file_location` returned `None`) raises without
ever touching `sys.modules`: afterwards nothing is registered under
`"notebook_module"`, so not every call installs the module. -/
theorem c9_counterexample :
    (execute_notebook (NbLoad.noSpec "Problems/interactive_learn/problem-1/notebook.py") emptyReg 7).2
      "notebook_module" = none := rfl

/-- C9, amended: every call that reaches the execution phase (the module
object was created) installs the new module in `sys.modules` under the fixed
key `"notebook_module"`, replacing any previous entry and touching no other
key, and this registration survives a failure of the script's top-level code;
calls that fail during the loading phase leave the registry unchanged. -/
theorem c9_registration_survives (steps : List NbStep) (reg : NbRegistry) (modId : Nat) :
    (execute_notebook (NbLoad.loaded steps) reg modId).2 "notebook_module" = some modId
    ∧ (∀ k, k ≠ "notebook_module" →
        (execute_notebook (NbLoad.loaded steps) reg modId).2 k = reg k)
    ∧ (∀ p, (execute_notebook (NbLoad.noSpec p) reg modId).2 = reg)
    ∧ (∀ p, (execute_notebook (NbLoad.noLoader p) reg modId).2 = reg) := by
  have h2 : (execute_notebook (NbLoad.loaded steps) reg modId).2
      = fun k => if k = "notebook_module" then some modId else reg k := by
    simp only [execute_notebook]
    cases hr : runTopLevel steps "" with
    | inl buf => rfl
    | inr e => rfl
  refine ⟨?_, ?_, fun _ => rfl, fun _ => rfl⟩
  · rw [h2]
    simp
  · intro k hk
    rw [h2]
    simp [hk]

theorem c9_registration_survives_witness :
    (execute_notebook (NbLoad.loaded [NbStep.raiseErr "boom"]) emptyReg 5).2 "notebook_module" = some 5
    ∧ (execute_notebook (NbLoad.loaded [NbStep.raiseErr "boom"]) emptyReg 5).2 "other_module" = none :=
  ⟨(c9_registration_survives [NbStep.raiseErr "boom"] emptyReg 5).1,
   ((c9_registration_survives [NbStep.raiseErr "boom"] emptyReg 5).2.1 "other_module"
     (by decide)).trans rfl⟩

/-- C3: for every entry list, the scanner succeeds and returns exactly the
subdirectory names (a permutation of them), ordered ascending by the
`get_number` key (names without a numeric-underscore prefix compare greater
than all that have one, so they come after them, and a prefix-less name is
never followed by a prefixed one), and — by stability of the sort — the
prefix-less names keep their original relative enumeration order. -/
theorem c3_scanner_sorted_stable (entries : List Dirent) :
    ∃ out, get_problem_directories (ListDirResult.ok entries) = Except.ok out
      ∧ out.Perm ((entries.filter (fun e => e.isDir)).map (fun e => e.name))
      ∧ out.Pairwise (fun a b => keyLE a b = true)
      ∧ out.Pairwise (fun a b => getNumber a = none → getNumber b = none)
      ∧ out.filter (fun d => (getNumber d).isNone)
          = ((entries.filter (fun e => e.isDir)).map (fun e => e.name)).filter
              (fun d => (getNumber d).isNone) := by
  refine ⟨_, rfl, ?_, ?_, ?_, ?_⟩
  · exact List.mergeSort_perm _ keyLE
  · exact List.sorted_mergeSort keyLE_trans keyLE_total _
  · exact (List.sorted_mergeSort keyLE_trans keyLE_total _).imp
      (fun h ha => keyLE_none _ _ h ha)
  · exact sortProblemDirs_stable_none _

/-- C10: the scaffolder sanitizes the name only by turning spaces into
underscores: the created directory path is exactly the problems root joined
with `"{n}_{name with spaces replaced}"`, and the sanitization is a
character-wise map that keeps every non-space character (including path
separators and letter case) verbatim at its position. -/
theorem c10_sanitize_spaces_only (fs : FS) (n : Nat) (s : String)
    (hn : n ≠ 0) (hs : s ≠ "") :
    (create_new_problem fs n s).dirs.head?
        = some ("Problems/" ++ natStr n ++ "_" ++ replaceSpaces s)
    ∧ (replaceSpaces s).data.length = s.data.length
    ∧ ∀ (i : Nat) (h1 : i < s.data.length) (h2 : i < (replaceSpaces s).data.length),
        (replaceSpaces s).data.get ⟨i, h2⟩
          = if s.data.get ⟨i, h1⟩ = ' ' then '_' else s.data.get ⟨i, h1⟩ := by
  refine ⟨?_, ?_, ?_⟩
  · unfold create_new_problem
    rw [if_pos ⟨hn, hs⟩]
    show some (problemPath n s) = _
    rw [problemPath_eq]
    unfold dirNameFor
    simp [String.append_assoc]
  · simp [replaceSpaces]
  · intro i h1 h2
    simp [replaceSpaces, List.get_eq_getElem, List.getElem_map]

/-- C5: whenever the text reaching the delimiter-rewrite stage (the input
itself, or the markdown conversion's output for a `.md` tag — the rewrite is
applied regardless of the tag, after any markdown conversion) contains the
literal sites `\(x\)` and `\[y\]` (with the site contents free of
backslashes), the rendered text contains `$x$` and `$$y$$` at those sites:
the site delimiters `\(`, `\)`, `\[`, `\]` are all consumed by the
substitutions and none of them survives. -/
theorem c5_delimiter_rewrite (md : List Char → List Char) (content : List Char) (ext : String)
    (a x m y b : List Char)
    (hshape : (if ext = ".md" then md content else content)
        = a ++ '\\' :: '(' :: (x ++ '\\' :: ')' :: (m ++ '\\' :: '[' :: (y ++ '\\' :: ']' :: b))))
    (hx : '\\' ∉ x) (hy : '\\' ∉ y) :
    ∃ A M B, renderMathText md content ext
        = A ++ '$' :: (x ++ '$' :: (M ++ '$' :: '$' :: (y ++ '$' :: '$' :: B))) := by
  unfold renderMathText
  rw [hshape]
  exact mathRewrite_sites a x m y b hx hy

theorem c5_delimiter_rewrite_witness :
    ∃ A M B, renderMathText id "\\(u\\)\\[v\\]".data ".html"
        = A ++ '$' :: (['u'] ++ '$' :: (M ++ '$' :: '$' :: (['v'] ++ '$' :: '$' :: B))) :=
  c5_delimiter_rewrite id "\\(u\\)\\[v\\]".data ".html" [] ['u'] [] ['v'] []
    (by decide) (by decide) (by decide)

theorem c10_sanitize_spaces_only_witness :
    (create_new_problem emptyFS 3 "a b/C").dirs.head? = some "Problems/3_a_b/C" :=
  ((c10_sanitize_spaces_only emptyFS 3 "a b/C" (by decide) (by decide)).1).trans (by decide)

end DmlApp
